import Mathlib

/-!
Verification of the attendance-matching core of the student attendance
tracker (Next.js route under src/app/api/attendance).

The embedding models the decision logic of the POST handler after the
OCR payload has been obtained: confidence gating, the two-tier student
matcher (exact studentId lookup, then a fuzzy name match over the full
roster), and the attendance-record creation contract.  JavaScript strings
are modelled as Lean strings, JavaScript numbers as rationals (all the
scores are exact small rationals), and the single database write as the
record value carried by the success outcome.
-/

namespace Attendance

/-- JavaScript whitespace as matched by the regular expression used in
normalizeVietnameseName: space, tab, and the common line or page
separators. -/
def isJsSpace (c : Char) : Bool :=
  c = ' ' || c = '\t' || c = '\n' || c = '\r' || c = '\x0b' || c = '\x0c'

/-- One pass of the replace step of normalizeVietnameseName: each maximal
run of whitespace characters becomes a single space.  The flag records
whether the previous character was part of a whitespace run. -/
def collapseWsAux : Bool → List Char → List Char
  | _, [] => []
  | prevWs, c :: cs =>
    if isJsSpace c then
      if prevWs then collapseWsAux true cs
      else ' ' :: collapseWsAux true cs
    else c :: collapseWsAux false cs

/-- Collapse every whitespace run to a single space, as the global
regex replace in the route does. -/
def collapseWs (l : List Char) : List Char := collapseWsAux false l

/-- JavaScript trim: drop leading and trailing whitespace. -/
def trimWs (l : List Char) : List Char :=
  ((l.dropWhile isJsSpace).reverse.dropWhile isJsSpace).reverse

/-- normalizeVietnameseName from the route: lowercase, collapse runs of
whitespace to one space, trim. -/
def normalizeVietnameseName (name : String) : String :=
  String.mk (trimWs (collapseWs (name.data.map Char.toLower)))

/-- JavaScript split on a single space, accumulating the current
(reversed) word.  Mirrors the JavaScript semantics: the result always has
at least one element, and splitting the empty string yields a singleton
list holding the empty string. -/
def splitSpaceAux : List Char → List Char → List String
  | [], acc => [String.mk acc.reverse]
  | c :: cs, acc =>
    if c = ' ' then String.mk acc.reverse :: splitSpaceAux cs []
    else splitSpaceAux cs (c :: acc)

/-- Split a JavaScript string on single spaces. -/
def jsSplitSpace (s : String) : List String := splitSpaceAux s.data []

/-- The word list of a name as computed inside calculateNameSimilarity:
normalize, then split on single spaces. -/
def wordsOf (name : String) : List String :=
  jsSplitSpace (normalizeVietnameseName name)

/-- The intersection array of calculateNameSimilarity: the words of the
first name filtered by membership in the words of the second name.  Note
that duplicates of the first word list are kept. -/
def interWords (name1 name2 : String) : List String :=
  (wordsOf name1).filter (fun w => (wordsOf name2).contains w)

/-- The union array of calculateNameSimilarity: the duplicate-free
concatenation of the two word lists (only its length is used). -/
def unionWords (name1 name2 : String) : List String :=
  ((wordsOf name1) ++ (wordsOf name2)).dedup

/-- calculateNameSimilarity from the route: intersection length divided
by union length. -/
def calculateNameSimilarity (name1 name2 : String) : ℚ :=
  ((interWords name1 name2).length : ℚ) / ((unionWords name1 name2).length : ℚ)

/-- The Jaccard index as the specification words it, used to compare the
implemented score against the specified one: intersection cardinality of
the two word sets over union cardinality, with an explicit guard giving 0
on an empty union. -/
def jaccardSimilarity (name1 name2 : String) : ℚ :=
  if (wordsOf name1).toFinset ∪ (wordsOf name2).toFinset = ∅ then 0
  else (((wordsOf name1).toFinset ∩ (wordsOf name2).toFinset).card : ℚ) /
       (((wordsOf name1).toFinset ∪ (wordsOf name2).toFinset).card : ℚ)

/-- A row of the Student table from the prisma migrations: numeric
primary key, unique external code studentId, free-text name and class. -/
structure Student where
  id : Nat
  studentId : String
  name : String
  klass : String
deriving DecidableEq, Repr

/-- The OCR payload consumed by the route.  A missing student_id or
student_name behaves exactly like the empty string under JavaScript
truthiness, so both are modelled as strings. -/
structure OCRResult where
  student_id : String
  student_name : String
  confidence : ℚ
  ocr_text : String
deriving DecidableEq, Repr

/-- Which strategy resolved the student. -/
inductive MatchType where
  | ID_Match
  | Name_Match
deriving DecidableEq, Repr

/-- The string tag stored in the status column. -/
def matchTypeTag : MatchType → String
  | .ID_Match => "ID_Match"
  | .Name_Match => "Name_Match"

/-- A row of the Attendance table as created by the route: the numeric id
of the resolved student, the match-type tag as status, and the creation
time.  Time is modelled as a natural number supplied by the caller. -/
structure AttendanceRecord where
  studentId : Nat
  status : String
  date : Nat
deriving DecidableEq, Repr

/-- The three outcomes the matching core can produce (OCR-service
failures happen before this core runs and are out of scope). -/
inductive AttendanceOutcome where
  | lowConfidence (confidence : ℚ) (ocrText : String)
  | studentNotFound (studentId studentName : String) (confidence : ℚ) (ocrText : String)
  | success (student : Student) (matchType : MatchType) (record : AttendanceRecord)
deriving DecidableEq, Repr

/-- The similarity the name-match loop computes for a roster entry: the
roster name first, the OCR name second. -/
def simOf (ocrName : String) (s : Student) : ℚ :=
  calculateNameSimilarity s.name ocrName

/-- The roster loop of the route: threads bestMatch and bestSimilarity,
replacing the candidate only when the similarity is strictly above the
running best and at least 7/10. -/
def bestMatchLoop (ocrName : String) :
    List Student → Option Student → ℚ → Option Student × ℚ
  | [], best, bestSim => (best, bestSim)
  | s :: rest, best, bestSim =>
    if simOf ocrName s > bestSim ∧ simOf ocrName s ≥ 7/10 then
      bestMatchLoop ocrName rest (some s) (simOf ocrName s)
    else
      bestMatchLoop ocrName rest best bestSim

/-- The fuzzy name-match step: scan the whole roster starting from a null
best match and a best similarity of 0. -/
def bestNameMatch (roster : List Student) (ocrName : String) : Option Student :=
  (bestMatchLoop ocrName roster none 0).1

/-- The identifier-match step of the route: guarded by JavaScript
truthiness of the extracted id, then the first roster entry (in store
order) whose studentId equals it exactly, case-sensitively. -/
def findById (roster : List Student) (sid : String) : Option Student :=
  if sid ≠ "" then roster.find? (fun s => s.studentId == sid) else none

/-- The two-tier matcher of the handler: exact id lookup first; if it
fails and student_name is truthy and confidence is at least 75, the fuzzy
name match over the full roster. -/
def resolveStudent (roster : List Student) (ocr : OCRResult) :
    Option (Student × MatchType) :=
  match findById roster ocr.student_id with
  | some s => some (s, .ID_Match)
  | none =>
    if ocr.student_name ≠ "" ∧ ocr.confidence ≥ 75 then
      match bestNameMatch roster ocr.student_name with
      | some s => some (s, .Name_Match)
      | none => none
    else none

/-- The decision logic of the POST handler after the OCR call: the
confidence gate, the two-tier matcher, and record creation on a resolved
match. -/
def processAttendance (roster : List Student) (ocr : OCRResult) (now : Nat) :
    AttendanceOutcome :=
  if ocr.confidence < 50 then
    .lowConfidence ocr.confidence ocr.ocr_text
  else
    match resolveStudent roster ocr with
    | none =>
      .studentNotFound ocr.student_id ocr.student_name ocr.confidence ocr.ocr_text
    | some (s, mt) => .success s mt ⟨s.id, matchTypeTag mt, now⟩

/-- The attendance rows written by one request: exactly the record carried
by a success outcome, nothing on a failure outcome. -/
def recordsOf : AttendanceOutcome → List AttendanceRecord
  | .success _ _ rec => [rec]
  | _ => []

/-- Splitting never yields the empty list, for any input and any
accumulator. -/
lemma splitSpaceAux_ne_nil (l : List Char) (acc : List Char) :
    splitSpaceAux l acc ≠ [] := by
  induction l generalizing acc with
  | nil => simp [splitSpaceAux]
  | cons c cs ih =>
    simp only [splitSpaceAux]
    split
    · simp
    · exact ih _

/-- Every name, the empty one included, has at least one word. -/
lemma wordsOf_ne_nil (name : String) : wordsOf name ≠ [] :=
  splitSpaceAux_ne_nil _ _

/-- The union array of two word lists is never empty. -/
lemma unionWords_ne_nil (a b : String) : unionWords a b ≠ [] := by
  unfold unionWords
  rw [Ne, List.dedup_eq_nil, List.append_eq_nil]
  intro ⟨h, _⟩
  exact wordsOf_ne_nil a h

/-- The denominator of the similarity score is positive. -/
lemma unionWords_length_pos (a b : String) : 0 < (unionWords a b).length :=
  List.length_pos.mpr (unionWords_ne_nil a b)

/-- The similarity score is never negative. -/
lemma sim_nonneg (a b : String) : 0 ≤ calculateNameSimilarity a b :=
  div_nonneg (Nat.cast_nonneg _) (Nat.cast_nonneg _)

/-- The union length is the cardinality of the union of the word sets. -/
lemma unionWords_length_eq (a b : String) :
    (unionWords a b).length = ((wordsOf a).toFinset ∪ (wordsOf b).toFinset).card := by
  unfold unionWords
  rw [← List.card_toFinset, List.toFinset_append]

/-- When the first word list has no duplicates, the intersection length is
the cardinality of the intersection of the word sets. -/
lemma interWords_length_of_nodup {a : String} (b : String) (h : (wordsOf a).Nodup) :
    (interWords a b).length = ((wordsOf a).toFinset ∩ (wordsOf b).toFinset).card := by
  unfold interWords
  rw [← List.toFinset_card_of_nodup (h.filter _), List.toFinset_filter]
  congr 1
  rw [← Finset.filter_mem_eq_inter]
  apply Finset.filter_congr
  intro x _
  simp [List.elem_iff]

/-- The union of the two word sets is never the empty set. -/
lemma wordsOf_toFinset_union_ne_empty (a b : String) :
    (wordsOf a).toFinset ∪ (wordsOf b).toFinset ≠ ∅ := by
  obtain ⟨w, hw⟩ := List.exists_mem_of_ne_nil _ (wordsOf_ne_nil a)
  exact Finset.ne_empty_of_mem (Finset.mem_union_left _ (List.mem_toFinset.mpr hw))

/-- With a duplicate-free first word list the implemented score is the
Jaccard index of the specification. -/
lemma sim_eq_jaccard_of_nodup {a : String} (b : String) (h : (wordsOf a).Nodup) :
    calculateNameSimilarity a b = jaccardSimilarity a b := by
  unfold calculateNameSimilarity jaccardSimilarity
  rw [if_neg (wordsOf_toFinset_union_ne_empty a b),
    interWords_length_of_nodup b h, unionWords_length_eq]

/-- With a duplicate-free first word list the score is at most 1. -/
lemma sim_le_one_of_nodup {a : String} (b : String) (h : (wordsOf a).Nodup) :
    calculateNameSimilarity a b ≤ 1 := by
  unfold calculateNameSimilarity
  rw [interWords_length_of_nodup b h, unionWords_length_eq]
  apply div_le_one_of_le₀
  · exact Nat.cast_le.mpr (Finset.card_le_card
      (Finset.Subset.trans Finset.inter_subset_left Finset.subset_union_left))
  · exact Nat.cast_nonneg _

/-- Permuting the first word list leaves the score unchanged. -/
lemma sim_perm_left {a' a : String} (b : String)
    (h : List.Perm (wordsOf a') (wordsOf a)) :
    calculateNameSimilarity a' b = calculateNameSimilarity a b := by
  unfold calculateNameSimilarity
  have hi : (interWords a' b).length = (interWords a b).length :=
    List.Perm.length_eq (h.filter _)
  have hu : (unionWords a' b).length = (unionWords a b).length :=
    List.Perm.length_eq ((h.append_right (wordsOf b)).dedup)
  rw [hi, hu]

/-- Permuting the second word list leaves the score unchanged. -/
lemma sim_perm_right {b' b : String} (a : String)
    (h : List.Perm (wordsOf b') (wordsOf b)) :
    calculateNameSimilarity a b' = calculateNameSimilarity a b := by
  have hcb : ∀ x, (wordsOf b').contains x = (wordsOf b).contains x := by
    intro x
    rw [Bool.eq_iff_iff]
    simp only [List.elem_iff]
    exact h.mem_iff
  unfold calculateNameSimilarity
  have hi : interWords a b' = interWords a b := by
    unfold interWords
    exact List.filter_congr (fun x _ => hcb x)
  have hu : (unionWords a b').length = (unionWords a b).length :=
    List.Perm.length_eq (((h.append_left (wordsOf a))).dedup)
  rw [hi, hu]

/-- Complete characterisation of the roster loop, by induction on the
remaining roster: either no entry beats the incoming state and the state
is returned unchanged, or the result names the last entry that updated
the running best, which is the first entry attaining the final score. -/
lemma bestMatchLoop_spec (ocrName : String) (l : List Student) :
    ∀ (best : Option Student) (q : ℚ),
      (bestMatchLoop ocrName l best q = (best, q) ∧
        ∀ t ∈ l, ¬(simOf ocrName t > q ∧ simOf ocrName t ≥ 7/10))
      ∨ ∃ l1 s l2,
          l = l1 ++ s :: l2 ∧
          (bestMatchLoop ocrName l best q).1 = some s ∧
          (bestMatchLoop ocrName l best q).2 = simOf ocrName s ∧
          simOf ocrName s > q ∧ simOf ocrName s ≥ 7/10 ∧
          (∀ t ∈ l1, simOf ocrName t < simOf ocrName s ∨ simOf ocrName t ≤ q ∨
            simOf ocrName t < 7/10) ∧
          (∀ t ∈ l2, simOf ocrName t ≤ simOf ocrName s ∨ simOf ocrName t < 7/10) := by
  induction l with
  | nil =>
    intro best q
    left
    exact ⟨rfl, by simp⟩
  | cons s rest ih =>
    intro best q
    by_cases hc : simOf ocrName s > q ∧ simOf ocrName s ≥ 7/10
    · have hstep : bestMatchLoop ocrName (s :: rest) best q
          = bestMatchLoop ocrName rest (some s) (simOf ocrName s) := by
        simp only [bestMatchLoop, if_pos hc]
      rcases ih (some s) (simOf ocrName s) with ⟨heq, hall⟩ |
        ⟨l1, s', l2, hsplit, h1, h2, hgt, hge, hl1, hl2⟩
      · right
        refine ⟨[], s, rest, by simp, ?_, ?_, hc.1, hc.2, by simp, ?_⟩
        · rw [hstep, heq]
        · rw [hstep, heq]
        · intro t ht
          have hnt := hall t ht
          rcases lt_or_le (simOf ocrName t) (7/10 : ℚ) with h | h
          · exact Or.inr h
          · left
            by_contra hx
            push_neg at hx
            exact hnt ⟨hx, h⟩
      · right
        refine ⟨s :: l1, s', l2, by rw [hsplit, List.cons_append], ?_, ?_,
          lt_trans hc.1 hgt, hge, ?_, hl2⟩
        · rw [hstep]; exact h1
        · rw [hstep]; exact h2
        · intro t ht
          rcases List.mem_cons.mp ht with rfl | ht'
          · exact Or.inl hgt
          · rcases hl1 t ht' with h | h | h
            · exact Or.inl h
            · exact Or.inl (lt_of_le_of_lt h hgt)
            · exact Or.inr (Or.inr h)
    · have hstep : bestMatchLoop ocrName (s :: rest) best q
          = bestMatchLoop ocrName rest best q := by
        simp only [bestMatchLoop, if_neg hc]
      rcases ih best q with ⟨heq, hall⟩ |
        ⟨l1, s', l2, hsplit, h1, h2, hgt, hge, hl1, hl2⟩
      · left
        refine ⟨by rw [hstep, heq], ?_⟩
        intro t ht
        rcases List.mem_cons.mp ht with rfl | ht'
        · exact hc
        · exact hall t ht'
      · right
        refine ⟨s :: l1, s', l2, by rw [hsplit, List.cons_append], ?_, ?_,
          hgt, hge, ?_, hl2⟩
        · rw [hstep]; exact h1
        · rw [hstep]; exact h2
        · intro t ht
          rcases List.mem_cons.mp ht with rfl | ht'
          · rcases not_and_or.mp hc with h | h
            · exact Or.inr (Or.inl (not_lt.mp h))
            · exact Or.inr (Or.inr (not_le.mp h))
          · exact hl1 t ht'

/-- Every earlier-entry bound collapses to a strict bound once the final
score is known to be at least 7/10 and scores are nonnegative. -/
lemma sim_lt_of_cases {ocrName : String} {t s : Student}
    (hge : simOf ocrName s ≥ 7/10)
    (h : simOf ocrName t < simOf ocrName s ∨ simOf ocrName t ≤ 0 ∨
      simOf ocrName t < 7/10) :
    simOf ocrName t < simOf ocrName s := by
  rcases h with h | h | h
  · exact h
  · calc simOf ocrName t ≤ 0 := h
      _ < 7/10 := by norm_num
      _ ≤ simOf ocrName s := hge
  · exact lt_of_lt_of_le h hge

/-- The roster scan from the initial state: either nothing qualifies and
the result is none, or the result is the first roster entry attaining the
maximal score, that score being at least 7/10. -/
lemma bestNameMatch_cases (roster : List Student) (ocrName : String) :
    (bestNameMatch roster ocrName = none ∧
      ∀ t ∈ roster, ¬(simOf ocrName t > 0 ∧ simOf ocrName t ≥ 7/10))
    ∨ ∃ l1 s l2,
        roster = l1 ++ s :: l2 ∧
        bestNameMatch roster ocrName = some s ∧
        simOf ocrName s ≥ 7/10 ∧
        (∀ t ∈ l1, simOf ocrName t < simOf ocrName s) ∧
        (∀ t ∈ l2, simOf ocrName t ≤ simOf ocrName s ∨ simOf ocrName t < 7/10) := by
  rcases bestMatchLoop_spec ocrName roster none 0 with ⟨heq, hall⟩ |
    ⟨l1, s, l2, hsplit, h1, h2, _, hge, hl1, hl2⟩
  · left
    exact ⟨by unfold bestNameMatch; rw [heq], hall⟩
  · right
    exact ⟨l1, s, l2, hsplit, h1, hge,
      fun t ht => sim_lt_of_cases hge (hl1 t ht), hl2⟩

/-- A name-match result always names a roster entry. -/
lemma bestNameMatch_mem {roster : List Student} {ocrName : String} {s : Student}
    (h : bestNameMatch roster ocrName = some s) : s ∈ roster := by
  rcases bestNameMatch_cases roster ocrName with ⟨hnone, _⟩ |
    ⟨l1, s', l2, hsplit, hsome, _, _, _⟩
  · rw [hnone] at h; exact absurd h (by simp)
  · rw [hsome] at h
    obtain rfl : s' = s := Option.some.inj h
    rw [hsplit]
    exact List.mem_append_right _ (List.mem_cons_self _ _)

/-- A name-match result qualifies, attains the roster-wide maximal score,
and is the first entry in roster order doing so. -/
lemma bestNameMatch_qualifies {roster : List Student} {ocrName : String} {s : Student}
    (h : bestNameMatch roster ocrName = some s) :
    simOf ocrName s ≥ 7/10 ∧
    (∀ t ∈ roster, simOf ocrName t ≤ simOf ocrName s) ∧
    ∃ l1 l2, roster = l1 ++ s :: l2 ∧ ∀ t ∈ l1, simOf ocrName t < simOf ocrName s := by
  rcases bestNameMatch_cases roster ocrName with ⟨hnone, _⟩ |
    ⟨l1, s', l2, hsplit, hsome, hge, hl1, hl2⟩
  · rw [hnone] at h; exact absurd h (by simp)
  · rw [hsome] at h
    obtain rfl : s' = s := Option.some.inj h
    refine ⟨hge, ?_, l1, l2, hsplit, hl1⟩
    intro t ht
    rw [hsplit] at ht
    rcases List.mem_append.mp ht with ht1 | ht2
    · exact le_of_lt (hl1 t ht1)
    · rcases List.mem_cons.mp ht2 with rfl | ht2'
      · exact le_refl _
      · rcases hl2 t ht2' with h | h
        · exact h
        · exact le_of_lt (lt_of_lt_of_le h hge)

/-- If no roster entry reaches the 7/10 bar, the scan yields none. -/
lemma bestNameMatch_eq_none {roster : List Student} {ocrName : String}
    (h : ∀ t ∈ roster, simOf ocrName t < 7/10) :
    bestNameMatch roster ocrName = none := by
  rcases bestNameMatch_cases roster ocrName with ⟨hnone, _⟩ |
    ⟨l1, s, l2, hsplit, hsome, hge, _, _⟩
  · exact hnone
  · exfalso
    have hs : s ∈ roster := by
      rw [hsplit]; exact List.mem_append_right _ (List.mem_cons_self _ _)
    exact absurd (h s hs) (not_lt.mpr hge)

/-- If some roster entry reaches the 7/10 bar, the scan cannot yield
none. -/
lemma bestNameMatch_ne_none {roster : List Student} {ocrName : String}
    {t : Student} (ht : t ∈ roster) (hge : simOf ocrName t ≥ 7/10) :
    bestNameMatch roster ocrName ≠ none := by
  rcases bestNameMatch_cases roster ocrName with ⟨hnone, hall⟩ |
    ⟨l1, s, l2, hsplit, hsome, _, _, _⟩
  · exfalso
    apply hall t ht
    constructor
    · calc (0 : ℚ) < 7/10 := by norm_num
        _ ≤ simOf ocrName t := hge
    · exact hge
  · rw [hsome]; simp

/-- With a non-empty id and a unique roster entry carrying it, the
identifier lookup returns exactly that entry. -/
lemma findById_eq_some {roster : List Student} {sid : String} {s : Student}
    (hid : sid ≠ "") (hmem : s ∈ roster) (hsid : s.studentId = sid)
    (huniq : ∀ t ∈ roster, t.studentId = sid → t = s) :
    findById roster sid = some s := by
  unfold findById
  rw [if_pos hid]
  have hsome : (roster.find? (fun t => t.studentId == sid)).isSome := by
    rw [List.find?_isSome]
    exact ⟨s, hmem, by simp [hsid]⟩
  obtain ⟨t, ht⟩ := Option.isSome_iff_exists.mp hsome
  have hpt := List.find?_some ht
  have htmem : t ∈ roster := List.mem_of_find?_eq_some ht
  rw [ht]
  exact congrArg some (huniq t htmem (by simpa using hpt))

/-- The identifier lookup is skipped on an empty (falsy) id. -/
lemma findById_eq_none_of_empty (roster : List Student) :
    findById roster "" = none := by
  unfold findById
  simp

/-- The identifier lookup fails when no roster entry carries the id. -/
lemma findById_eq_none_of_absent {roster : List Student} {sid : String}
    (h : ∀ t ∈ roster, t.studentId ≠ sid) :
    findById roster sid = none := by
  unfold findById
  split
  · rw [List.find?_eq_none]
    intro t ht
    simpa using h t ht
  · rfl

/-- Either failure mode of the identifier match makes the lookup yield
none. -/
lemma findById_none_of_failed {roster : List Student} {sid : String}
    (h : sid = "" ∨ ∀ t ∈ roster, t.studentId ≠ sid) :
    findById roster sid = none := by
  rcases h with h | h
  · rw [h]
    exact findById_eq_none_of_empty roster
  · exact findById_eq_none_of_absent h

/-- A successful identifier lookup resolves with the ID_Match tag. -/
lemma resolveStudent_of_id {roster : List Student} {ocr : OCRResult} {s : Student}
    (h : findById roster ocr.student_id = some s) :
    resolveStudent roster ocr = some (s, .ID_Match) := by
  unfold resolveStudent
  rw [h]

/-- An identifier-lookup result always names a roster entry. -/
lemma findById_mem {roster : List Student} {sid : String} {s : Student}
    (h : findById roster sid = some s) : s ∈ roster := by
  unfold findById at h
  split at h
  · exact List.mem_of_find?_eq_some h
  · exact absurd h (by simp)

/-- A resolved student always comes from the roster. -/
lemma resolveStudent_mem {roster : List Student} {ocr : OCRResult}
    {s : Student} {mt : MatchType}
    (h : resolveStudent roster ocr = some (s, mt)) : s ∈ roster := by
  cases hfind : findById roster ocr.student_id with
  | some u =>
    rw [resolveStudent_of_id hfind] at h
    simp only [Option.some.injEq, Prod.mk.injEq] at h
    obtain ⟨rfl, -⟩ := h
    exact findById_mem hfind
  | none =>
    unfold resolveStudent at h
    rw [hfind] at h
    by_cases hcond : ocr.student_name ≠ "" ∧ ocr.confidence ≥ 75
    · cases hbm : bestNameMatch roster ocr.student_name with
      | some u =>
        simp only [if_pos hcond, hbm, Option.some.injEq, Prod.mk.injEq] at h
        obtain ⟨rfl, -⟩ := h
        exact bestNameMatch_mem hbm
      | none =>
        simp only [if_pos hcond, hbm] at h
        simp at h
    · simp only [if_neg hcond] at h
      simp at h

/-- Above the confidence gate, a resolved match produces the success
outcome carrying the freshly created record. -/
lemma processAttendance_success {roster : List Student} {ocr : OCRResult}
    {s : Student} {mt : MatchType} (now : Nat)
    (hconf : ¬ ocr.confidence < 50)
    (h : resolveStudent roster ocr = some (s, mt)) :
    processAttendance roster ocr now = .success s mt ⟨s.id, matchTypeTag mt, now⟩ := by
  unfold processAttendance
  rw [if_neg hconf, h]

/-- Above the confidence gate, an unresolved match surfaces the raw OCR
fields. -/
lemma processAttendance_notFound {roster : List Student} {ocr : OCRResult}
    (now : Nat) (hconf : ¬ ocr.confidence < 50)
    (h : resolveStudent roster ocr = none) :
    processAttendance roster ocr now
      = .studentNotFound ocr.student_id ocr.student_name ocr.confidence ocr.ocr_text := by
  unfold processAttendance
  rw [if_neg hconf, h]

/-- Claim C1: with confidence at least 50 and a non-empty OCR student_id,
if the roster contains exactly one Student whose studentId equals it,
case-sensitively, then the matcher resolves that Student as ID_Match and
stops: the outcome does not depend on the OCR name or on any
name-similarity candidate in the roster. -/
theorem id_match_takes_priority
    (roster : List Student) (ocr : OCRResult) (now : Nat) (s : Student)
    (hconf : ocr.confidence ≥ 50) (hid : ocr.student_id ≠ "")
    (hmem : s ∈ roster) (hsid : s.studentId = ocr.student_id)
    (huniq : ∀ t ∈ roster, t.studentId = ocr.student_id → t = s) :
    processAttendance roster ocr now = .success s .ID_Match ⟨s.id, "ID_Match", now⟩ := by
  have hconf' : ¬ ocr.confidence < 50 := not_lt.mpr hconf
  have hfind := findById_eq_some hid hmem hsid huniq
  exact processAttendance_success now hconf' (resolveStudent_of_id hfind)

/-- Concrete witness for Claim C1: an exact id hit wins even though the
OCR name matches nothing. -/
theorem id_match_takes_priority_witness :
    processAttendance [⟨1, "B21DCVT020", "Nguyen Van A", "K1"⟩]
      ⟨"B21DCVT020", "Totally Different", 90, "raw"⟩ 0
      = .success ⟨1, "B21DCVT020", "Nguyen Van A", "K1"⟩ .ID_Match ⟨1, "ID_Match", 0⟩ := by
  apply id_match_takes_priority
  · norm_num
  · decide
  · simp
  · rfl
  · decide

/-- Claim C2: when the name-match step runs (identifier match failed,
non-empty student_name, confidence at least 75), it scores every roster
Student against the OCR name and selects the strictly best similarity of
at least 7/10, a tie at the maximum going to the first such Student in
roster order; if no Student reaches 7/10 the outcome is studentNotFound. -/
theorem name_match_selects_first_best
    (roster : List Student) (ocr : OCRResult) (now : Nat)
    (hconf : ocr.confidence ≥ 75)
    (hid : ocr.student_id = "" ∨ ∀ t ∈ roster, t.studentId ≠ ocr.student_id)
    (hname : ocr.student_name ≠ "") :
    ((∀ t ∈ roster, simOf ocr.student_name t < 7/10) →
      processAttendance roster ocr now
        = .studentNotFound ocr.student_id ocr.student_name ocr.confidence ocr.ocr_text)
    ∧ ((∃ t ∈ roster, simOf ocr.student_name t ≥ 7/10) →
        bestNameMatch roster ocr.student_name ≠ none)
    ∧ ∀ s, bestNameMatch roster ocr.student_name = some s →
        simOf ocr.student_name s ≥ 7/10
        ∧ (∀ t ∈ roster, simOf ocr.student_name t ≤ simOf ocr.student_name s)
        ∧ (∃ l1 l2, roster = l1 ++ s :: l2 ∧
            ∀ t ∈ l1, simOf ocr.student_name t < simOf ocr.student_name s)
        ∧ processAttendance roster ocr now
            = .success s .Name_Match ⟨s.id, "Name_Match", now⟩ := by
  have hconf' : ¬ ocr.confidence < 50 :=
    not_lt.mpr (le_trans (by norm_num) hconf)
  have hfind : findById roster ocr.student_id = none := findById_none_of_failed hid
  refine ⟨?_, ?_, ?_⟩
  · intro hlow
    have hbm : bestNameMatch roster ocr.student_name = none := bestNameMatch_eq_none hlow
    have hres : resolveStudent roster ocr = none := by
      unfold resolveStudent
      rw [hfind, if_pos ⟨hname, hconf⟩, hbm]
    exact processAttendance_notFound now hconf' hres
  · intro ⟨t, ht, hge⟩
    exact bestNameMatch_ne_none ht hge
  · intro s hs
    obtain ⟨hge, hmax, l1, l2, hsplit, hfirst⟩ := bestNameMatch_qualifies hs
    have hres : resolveStudent roster ocr = some (s, .Name_Match) := by
      unfold resolveStudent
      rw [hfind, if_pos ⟨hname, hconf⟩, hs]
    exact ⟨hge, hmax, ⟨l1, l2, hsplit, hfirst⟩,
      processAttendance_success now hconf' hres⟩

/-- Concrete witness for Claim C2: a roster with no word overlap gives
studentNotFound through the name-match step. -/
theorem name_match_selects_first_best_witness :
    processAttendance [⟨1, "A", "pham van x", "K"⟩] ⟨"", "zz qq", 80, "t"⟩ 0
      = .studentNotFound "" "zz qq" 80 "t" := by
  apply (name_match_selects_first_best [⟨1, "A", "pham van x", "K"⟩]
    ⟨"", "zz qq", 80, "t"⟩ 0 (by norm_num) (Or.inl rfl) (by decide)).1
  intro t ht
  have ht' : t = ⟨1, "A", "pham van x", "K"⟩ := by simpa using ht
  subst ht'
  have h1 : (interWords "pham van x" "zz qq").length = 0 := by decide
  have h2 : (unionWords "pham van x" "zz qq").length = 5 := by decide
  show calculateNameSimilarity "pham van x" "zz qq" < 7/10
  unfold calculateNameSimilarity
  rw [h1, h2]
  norm_num

/-- Claim C3: confidence below 50 short-circuits to lowConfidence
carrying the OCR confidence and raw text; the outcome is independent of
the roster and of the clock (the matcher is never consulted) and no
attendance record is created. -/
theorem low_confidence_short_circuits
    (roster roster' : List Student) (ocr : OCRResult) (now now' : Nat)
    (h : ocr.confidence < 50) :
    processAttendance roster ocr now = .lowConfidence ocr.confidence ocr.ocr_text
    ∧ processAttendance roster ocr now = processAttendance roster' ocr now'
    ∧ recordsOf (processAttendance roster ocr now) = [] := by
  have e : ∀ (r : List Student) (n : Nat),
      processAttendance r ocr n = .lowConfidence ocr.confidence ocr.ocr_text := by
    intro r n
    unfold processAttendance
    rw [if_pos h]
  refine ⟨e roster now, ?_, ?_⟩
  · rw [e roster now, e roster' now']
  · rw [e roster now]
    rfl

/-- Concrete witness for Claim C3: confidence 40 is rejected. -/
theorem low_confidence_short_circuits_witness :
    processAttendance [] ⟨"", "", 40, "txt"⟩ 0
      = .lowConfidence 40 "txt" :=
  (low_confidence_short_circuits [] [] ⟨"", "", 40, "txt"⟩ 0 0 (by norm_num)).1

/-- Claim C4: the name-match step is attempted only when the identifier
match failed, student_name is non-empty and confidence is at least 75;
whenever it is skipped (empty name, empty roster, or confidence between
50 and 74 with no identifier match) the outcome is studentNotFound
carrying the raw OCR fields, no record is created, and a Name_Match
success is impossible while the gate fails. -/
theorem name_match_gating
    (roster : List Student) (ocr : OCRResult) (now : Nat)
    (hconf : ocr.confidence ≥ 50) :
    ((ocr.student_id = "" ∨ ∀ t ∈ roster, t.studentId ≠ ocr.student_id) →
      (ocr.student_name = "" ∨ ocr.confidence < 75 ∨ roster = []) →
      processAttendance roster ocr now
        = .studentNotFound ocr.student_id ocr.student_name ocr.confidence ocr.ocr_text
      ∧ recordsOf (processAttendance roster ocr now) = [])
    ∧ ((ocr.student_name = "" ∨ ¬ ocr.confidence ≥ 75) →
      ∀ s rec, processAttendance roster ocr now ≠ .success s .Name_Match rec) := by
  have hconf' : ¬ ocr.confidence < 50 := not_lt.mpr hconf
  constructor
  · intro hid hskip
    have hfind : findById roster ocr.student_id = none := findById_none_of_failed hid
    have hres : resolveStudent roster ocr = none := by
      unfold resolveStudent
      rw [hfind]
      rcases hskip with h | h | h
      · rw [if_neg (fun hx => hx.1 h)]
      · rw [if_neg (fun hx => absurd hx.2 (not_le.mpr h))]
      · subst h
        simp [bestNameMatch, bestMatchLoop]
    have e := processAttendance_notFound now hconf' hres
    exact ⟨e, by rw [e]; rfl⟩
  · intro hcond s rec hsucc
    have hcond' : ¬(ocr.student_name ≠ "" ∧ ocr.confidence ≥ 75) := by
      rcases hcond with h | h
      · exact fun hx => hx.1 h
      · exact fun hx => h hx.2
    unfold processAttendance at hsucc
    rw [if_neg hconf'] at hsucc
    unfold resolveStudent at hsucc
    cases hfind : findById roster ocr.student_id with
    | some u =>
      rw [hfind] at hsucc
      simp at hsucc
    | none =>
      rw [hfind, if_neg hcond'] at hsucc
      simp at hsucc

/-- Concrete witness for Claim C4: confidence 60 with a failed id lookup
skips the name match even though the roster name is identical. -/
theorem name_match_gating_witness :
    processAttendance [⟨1, "X", "nguyen van a", "K"⟩] ⟨"Y", "nguyen van a", 60, "txt"⟩ 0
      = .studentNotFound "Y" "nguyen van a" 60 "txt" :=
  ((name_match_gating [⟨1, "X", "nguyen van a", "K"⟩] ⟨"Y", "nguyen van a", 60, "txt"⟩ 0
      (by norm_num)).1
    (Or.inr (by decide))
    (Or.inr (Or.inl (by norm_num)))).1

/-- Claim C5 counterexample: the score of "a a" against "a" evaluates to
2, which differs from the Jaccard index 1 of the corresponding word sets
and exceeds the claimed upper bound 1. -/
theorem similarity_exceeds_one_counterexample :
    calculateNameSimilarity "a a" "a" = 2
    ∧ ¬ calculateNameSimilarity "a a" "a" ≤ 1
    ∧ jaccardSimilarity "a a" "a" = 1 := by
  have h1 : (interWords "a a" "a").length = 2 := by decide
  have h2 : (unionWords "a a" "a").length = 1 := by decide
  have hc1 : ((wordsOf "a a").toFinset ∩ (wordsOf "a").toFinset).card = 1 := by decide
  have hc2 : ((wordsOf "a a").toFinset ∪ (wordsOf "a").toFinset).card = 1 := by decide
  have hne : ¬((wordsOf "a a").toFinset ∪ (wordsOf "a").toFinset = ∅) := by decide
  refine ⟨?_, ?_, ?_⟩
  · unfold calculateNameSimilarity
    rw [h1, h2]
    norm_num
  · unfold calculateNameSimilarity
    rw [h1, h2]
    norm_num
  · unfold jaccardSimilarity
    rw [if_neg hne, hc1, hc2]
    norm_num

/-- Claim C5 (amended): when the normalized word list of the first name
has no repeated word, the similarity equals the Jaccard index over the
two word sets and lies between 0 and 1.  In general the numerator counts
the words of the first name with multiplicity, so the original claim
fails; see the counterexample. -/
theorem similarity_jaccard_of_nodup (a b : String) (h : (wordsOf a).Nodup) :
    calculateNameSimilarity a b = jaccardSimilarity a b
    ∧ 0 ≤ calculateNameSimilarity a b
    ∧ calculateNameSimilarity a b ≤ 1 :=
  ⟨sim_eq_jaccard_of_nodup b h, sim_nonneg a b, sim_le_one_of_nodup b h⟩

/-- Concrete witness for Claim C5 (amended), at duplicate-free names. -/
theorem similarity_jaccard_of_nodup_witness :
    calculateNameSimilarity "ab cd" "cd" = jaccardSimilarity "ab cd" "cd"
    ∧ 0 ≤ calculateNameSimilarity "ab cd" "cd"
    ∧ calculateNameSimilarity "ab cd" "cd" ≤ 1 :=
  similarity_jaccard_of_nodup "ab cd" "cd" (by decide)

/-- Claim C6 counterexample: the similarity is not symmetric in general:
with the names "a a" and "a" the two argument orders give 2 and 1. -/
theorem similarity_asymmetric_counterexample :
    calculateNameSimilarity "a a" "a" = 2
    ∧ calculateNameSimilarity "a" "a a" = 1
    ∧ calculateNameSimilarity "a a" "a" ≠ calculateNameSimilarity "a" "a a" := by
  have h1 : (interWords "a a" "a").length = 2 := by decide
  have h2 : (unionWords "a a" "a").length = 1 := by decide
  have h3 : (interWords "a" "a a").length = 1 := by decide
  have h4 : (unionWords "a" "a a").length = 1 := by decide
  have e1 : calculateNameSimilarity "a a" "a" = 2 := by
    unfold calculateNameSimilarity
    rw [h1, h2]
    norm_num
  have e2 : calculateNameSimilarity "a" "a a" = 1 := by
    unfold calculateNameSimilarity
    rw [h3, h4]
    norm_num
  refine ⟨e1, e2, ?_⟩
  rw [e1, e2]
  norm_num

/-- Claim C6 (amended): the similarity is symmetric whenever both
normalized word lists are free of repeated words; a repeated word on one
side can break symmetry, as the counterexample shows. -/
theorem similarity_symm_of_nodup (a b : String)
    (ha : (wordsOf a).Nodup) (hb : (wordsOf b).Nodup) :
    calculateNameSimilarity a b = calculateNameSimilarity b a := by
  rw [sim_eq_jaccard_of_nodup b ha, sim_eq_jaccard_of_nodup a hb]
  unfold jaccardSimilarity
  rw [Finset.union_comm ((wordsOf a).toFinset) ((wordsOf b).toFinset),
    Finset.inter_comm ((wordsOf a).toFinset) ((wordsOf b).toFinset)]

/-- Concrete witness for Claim C6 (amended), at duplicate-free names. -/
theorem similarity_symm_of_nodup_witness :
    calculateNameSimilarity "ab cd" "cd ef" = calculateNameSimilarity "cd ef" "ab cd" :=
  similarity_symm_of_nodup "ab cd" "cd ef" (by decide) (by decide)

/-- Claim C7 counterexample: the similarity of two empty names is 1, not
0, because the empty string splits into the singleton list holding the
empty word, which the two sides then share. -/
theorem similarity_empty_names_counterexample :
    calculateNameSimilarity "" "" = 1
    ∧ calculateNameSimilarity "" "" ≠ 0
    ∧ wordsOf "" = [""] := by
  have h1 : (interWords "" "").length = 1 := by decide
  have h2 : (unionWords "" "").length = 1 := by decide
  have e : calculateNameSimilarity "" "" = 1 := by
    unfold calculateNameSimilarity
    rw [h1, h2]
    norm_num
  exact ⟨e, by rw [e]; norm_num, by decide⟩

/-- Claim C7 (amended): two names sharing no normalized word have
similarity 0, and two empty names raise no division error; their
similarity, however, is 1 rather than the claimed 0, since each empty
name contributes the same single empty word. -/
theorem similarity_no_shared_words (a b : String)
    (h : ∀ w ∈ wordsOf a, w ∉ wordsOf b) :
    calculateNameSimilarity a b = 0 ∧ calculateNameSimilarity "" "" = 1 := by
  constructor
  · have hi : interWords a b = [] := by
      unfold interWords
      rw [List.filter_eq_nil_iff]
      intro w hw
      simpa [List.elem_iff] using h w hw
    unfold calculateNameSimilarity
    rw [hi]
    simp
  · have h1 : (interWords "" "").length = 1 := by decide
    have h2 : (unionWords "" "").length = 1 := by decide
    unfold calculateNameSimilarity
    rw [h1, h2]
    norm_num

/-- Concrete witness for Claim C7 (amended), at names with no shared
word. -/
theorem similarity_no_shared_words_witness :
    calculateNameSimilarity "xx yy" "zz ww" = 0
    ∧ calculateNameSimilarity "" "" = 1 :=
  similarity_no_shared_words "xx yy" "zz ww" (by decide)

/-- Claim C8: the similarity is word-order-insensitive: permuting the
normalized words of either name leaves the score unchanged, and in
particular the score of "Nguyen Van A" against "A Van Nguyen" equals the
score of "Nguyen Van A" against itself, namely 1. -/
theorem similarity_word_order_insensitive (a a' b : String)
    (h : List.Perm (wordsOf a') (wordsOf a)) :
    calculateNameSimilarity a' b = calculateNameSimilarity a b
    ∧ calculateNameSimilarity b a' = calculateNameSimilarity b a
    ∧ calculateNameSimilarity "Nguyen Van A" "A Van Nguyen"
        = calculateNameSimilarity "Nguyen Van A" "Nguyen Van A"
    ∧ calculateNameSimilarity "Nguyen Van A" "Nguyen Van A" = 1 := by
  have h1 : (interWords "Nguyen Van A" "A Van Nguyen").length = 3 := by decide
  have h2 : (unionWords "Nguyen Van A" "A Van Nguyen").length = 3 := by decide
  have h3 : (interWords "Nguyen Van A" "Nguyen Van A").length = 3 := by decide
  have h4 : (unionWords "Nguyen Van A" "Nguyen Van A").length = 3 := by decide
  have e1 : calculateNameSimilarity "Nguyen Van A" "A Van Nguyen" = 1 := by
    unfold calculateNameSimilarity
    rw [h1, h2]
    norm_num
  have e2 : calculateNameSimilarity "Nguyen Van A" "Nguyen Van A" = 1 := by
    unfold calculateNameSimilarity
    rw [h3, h4]
    norm_num
  exact ⟨sim_perm_left b h, sim_perm_right b h, by rw [e1, e2], e2⟩

/-- Concrete witness for Claim C8, at a concrete permutation. -/
theorem similarity_word_order_insensitive_witness :
    calculateNameSimilarity "Van A Nguyen" "x"
      = calculateNameSimilarity "Nguyen Van A" "x" :=
  (similarity_word_order_insensitive "Nguyen Van A" "Van A Nguyen" "x" (by decide)).1

/-- Claim C9: an attendance record is created exactly when a Student is
resolved: on success exactly one record is created, whose studentId is
the numeric identity of the resolved Student (a roster member), whose
status is the tag of the resolving match type and whose date is the
current time; on every failure outcome no record is created. -/
theorem record_creation_contract (roster : List Student) (ocr : OCRResult) (now : Nat) :
    (∃ s mt rec, processAttendance roster ocr now = .success s mt rec
      ∧ s ∈ roster ∧ rec.studentId = s.id ∧ rec.status = matchTypeTag mt
      ∧ rec.date = now
      ∧ recordsOf (processAttendance roster ocr now) = [rec])
    ∨ ((∀ s mt rec, processAttendance roster ocr now ≠ .success s mt rec)
      ∧ recordsOf (processAttendance roster ocr now) = []) := by
  by_cases hconf : ocr.confidence < 50
  · right
    have e : processAttendance roster ocr now
        = .lowConfidence ocr.confidence ocr.ocr_text := by
      unfold processAttendance
      rw [if_pos hconf]
    rw [e]
    exact ⟨fun s mt rec h => by simp at h, rfl⟩
  · cases hres : resolveStudent roster ocr with
    | none =>
      right
      have e := processAttendance_notFound now hconf hres
      rw [e]
      exact ⟨fun s mt rec h => by simp at h, rfl⟩
    | some p =>
      obtain ⟨s, mt⟩ := p
      left
      have e := processAttendance_success now hconf hres
      exact ⟨s, mt, ⟨s.id, matchTypeTag mt, now⟩, e, resolveStudent_mem hres,
        rfl, rfl, rfl, by rw [e]; rfl⟩

/-- Claim C10: the similarity computation is total: splitting any string
yields at least one word, so the union of the two word lists is never
empty and the final division never has a zero denominator, even though
the code has no explicit zero-union guard. -/
theorem similarity_denominator_never_zero (name1 name2 : String) :
    wordsOf name1 ≠ [] ∧ wordsOf name2 ≠ []
    ∧ 0 < (unionWords name1 name2).length
    ∧ ((unionWords name1 name2).length : ℚ) ≠ 0 :=
  ⟨wordsOf_ne_nil name1, wordsOf_ne_nil name2, unionWords_length_pos name1 name2,
    Nat.cast_ne_zero.mpr (Nat.pos_iff_ne_zero.mp (unionWords_length_pos name1 name2))⟩

end Attendance
